import Mathlib

/-!
Verification development for the `access-rules` reverse-proxy worker.

The repository ships two near-duplicate variants of the same Cloudflare
worker: `workers.js` (embedded below in namespace `Workers`) and
`src/index.js` (namespace `IndexSrc`).  Both receive an inbound HTTP
request, forward it to a configured upstream host, and rewrite the
response's presentation headers (`Content-Type` charset, and
`Content-Disposition`) before returning it.

The embedding is shallow: JavaScript strings become Lean `String`s
(backed by `List Char`), the Fetch-API `Headers` object becomes an
association list with lower-cased keys, `Response` becomes a record of
status / headers / optional body, and the network `fetch` collaborator
becomes an explicit function argument, so that "no network call is made"
can be stated as "the result is the same for every collaborator".

All string operations used by the embedded code (`split`, `trim`,
`toLowerCase`, `startsWith`, `includes`, `parseInt`) are modelled by
structurally recursive functions over `List Char`, so every closed
instance evaluates inside the kernel (`decide` / `rfl`).
-/

/-! ## JavaScript string primitives -/

/-- Splitting accumulator: JavaScript `String.prototype.split` with a
single-character separator (`"a,,b".split(',') = ["a","","b"]`,
`"".split(',') = [""]`). -/
def splitOnCharAux (sep : Char) : List Char → List Char → List (List Char)
  | [], acc => [acc.reverse]
  | c :: t, acc =>
      if c = sep then acc.reverse :: splitOnCharAux sep t []
      else splitOnCharAux sep t (c :: acc)

/-- JavaScript `s.split(sep)` for a one-character separator. -/
def jsSplit (s : String) (sep : Char) : List String :=
  (splitOnCharAux sep s.data []).map (fun l => ⟨l⟩)

/-- JavaScript `s.trim()`: drop whitespace from both ends. -/
def jsTrim (s : String) : String :=
  ⟨((s.data.dropWhile Char.isWhitespace).reverse.dropWhile Char.isWhitespace).reverse⟩

/-- JavaScript `s.toLowerCase()` restricted to the ASCII range actually
used by MIME types and header names. -/
def strToLower (s : String) : String :=
  ⟨s.data.map Char.toLower⟩

/-- JavaScript `s.startsWith(pre)`. -/
def strStartsWith (s pre : String) : Bool :=
  pre.data.isPrefixOf s.data

/-- Boolean infix test on character lists, structural in the haystack. -/
def listIsInfixB (needle : List Char) : List Char → Bool
  | [] => needle.isEmpty
  | c :: t => needle.isPrefixOf (c :: t) || listIsInfixB needle t

/-- JavaScript `s.includes(sub)`: substring containment. -/
def strIncludes (s sub : String) : Bool :=
  listIsInfixB sub.data s.data

/-- Value of a hexadecimal digit character, if any. -/
def hexDigitVal (c : Char) : Option Nat :=
  if '0' ≤ c ∧ c ≤ '9' then some (c.toNat - '0'.toNat)
  else if 'a' ≤ c ∧ c ≤ 'f' then some (c.toNat - 'a'.toNat + 10)
  else if 'A' ≤ c ∧ c ≤ 'F' then some (c.toNat - 'A'.toNat + 10)
  else none

/-- Longest prefix of digit values valid in the given base. -/
def takeDigits (base : Nat) : List Char → List Nat
  | [] => []
  | c :: t =>
      match hexDigitVal c with
      | some v => if v < base then v :: takeDigits base t else []
      | none => []

/-- Strip an optional sign, returning the sign factor. -/
def splitSign : List Char → Int × List Char
  | '-' :: t => (-1, t)
  | '+' :: t => (1, t)
  | t => (1, t)

/-- Strip an optional `0x` / `0X` prefix, returning the radix. -/
def splitRadix : List Char → Nat × List Char
  | '0' :: 'x' :: t => (16, t)
  | '0' :: 'X' :: t => (16, t)
  | t => (10, t)

/-- JavaScript `parseInt(s)` with the radix argument omitted: skip
leading whitespace, read an optional sign, an optional hex prefix, then
the longest run of digits of the radix; `none` models `NaN` (no digits
at all). -/
def jsParseInt (s : String) : Option Int :=
  let cs := s.data.dropWhile Char.isWhitespace
  let sign := (splitSign cs).1
  let afterSign := (splitSign cs).2
  let base := (splitRadix afterSign).1
  let digits := (splitRadix afterSign).2
  let ds := takeDigits base digits
  if ds.isEmpty then none
  else some (sign * ds.foldl (fun a v => a * (base : Int) + (v : Int)) 0)

/-- JavaScript truthiness of a possibly-absent string: `undefined`,
`null` and `""` are falsy. -/
def strFalsy : Option String → Bool
  | none => true
  | some s => s.data.isEmpty

/-! ## Fetch-API data model -/

/-- Fetch-API `Headers`: association list whose keys are stored
lower-cased (header names are case-insensitive). -/
structure Headers where
  entries : List (String × String)
deriving DecidableEq

/-- Headers with no entries. -/
def Headers.empty : Headers := ⟨[]⟩

/-- Build headers from literal pairs, normalising keys to lower case. -/
def Headers.ofList (l : List (String × String)) : Headers :=
  ⟨l.map (fun p => (strToLower p.1, p.2))⟩

/-- Fetch-API `headers.get(k)` (case-insensitive; `null` becomes
`none`). -/
def Headers.get (h : Headers) (k : String) : Option String :=
  (h.entries.find? (fun p => p.1 == strToLower k)).map (fun p => p.2)

/-- Fetch-API `headers.delete(k)`. -/
def Headers.delete (h : Headers) (k : String) : Headers :=
  ⟨h.entries.filter (fun p => p.1 != strToLower k)⟩

/-- Fetch-API `headers.set(k, v)`: replace any existing entry. -/
def Headers.set (h : Headers) (k v : String) : Headers :=
  ⟨(h.delete k).entries ++ [(strToLower k, v)]⟩

/-- Fetch-API `Response`: status, headers, optional body.  Bodies are
opaque to the proxy (streamed through), so a `String` stands for the
body reference. -/
structure Response where
  status : Nat
  headers : Headers
  body : Option String
deriving DecidableEq

/-- Structured inbound URL, as exposed by the `URL` class: the fields
`buildReq` reads and writes. -/
structure URLParts where
  protocol : String
  hostname : String
  port : String
  pathAndQuery : String
deriving DecidableEq

/-- The `URL#toString` serialisation of the fields modelled here. -/
def URLParts.toString (u : URLParts) : String :=
  u.protocol ++ "//" ++ u.hostname ++
    (if u.port.data.isEmpty then "" else ":" ++ u.port) ++ u.pathAndQuery

/-- Inbound request as seen by the worker. -/
structure InboundRequest where
  method : String
  url : URLParts
  headers : Headers
  body : Option String
deriving DecidableEq

/-- The `RequestInit` dictionary passed to `fetch`. -/
structure RequestInit where
  method : String
  headers : Headers
  redirect : String
  body : Option String
deriving DecidableEq

/-- The pair `{ url, requestInit }` returned by `buildReq`. -/
structure ReqData where
  url : String
  requestInit : RequestInit
deriving DecidableEq

/-- Environment bindings read by the worker (all plain strings, any of
which may be unset). -/
structure Env where
  GET_URL : Option String
  NORMAL_STATUS_CODES : Option String
  FORCE_INLINE_TYPES : Option String
  FORCE_DOWNLOAD_TYPES : Option String
deriving DecidableEq

namespace Workers

/-- `const CHARSET_DEFAULT = 'utf-8'` of `workers.js`. -/
def CHARSET_DEFAULT : String := "utf-8"

/-- `const NULL_BODY_STATUS_CODES = [101, 204, 205, 304]` of
`workers.js`. -/
def NULL_BODY_STATUS_CODES : List Nat := [101, 204, 205, 304]

/-- `parseNormalStatusCodes` of `workers.js`: falsy input defaults to
`[200]`; otherwise split on commas, trim, `parseInt`, and drop the
tokens that parsed to `NaN`. -/
def parseNormalStatusCodes (statusCodesStr : Option String) : List Int :=
  if strFalsy statusCodesStr then [200]
  else ((jsSplit (statusCodesStr.getD "") ',').map
    (fun code => jsParseInt (jsTrim code))).reduceOption

/-- `parseMimeList` of `workers.js`: falsy input gives `[]`; otherwise
split on commas, trim, lower-case, and drop empty tokens
(`filter(Boolean)`). -/
def parseMimeList (mimeStr : Option String) : List String :=
  if strFalsy mimeStr then []
  else ((jsSplit (mimeStr.getD "") ',').map
    (fun t => strToLower (jsTrim t))).filter (fun t => !t.data.isEmpty)

/-- `buildReq` of `workers.js`: `null` when `GET_URL` is unset or empty;
otherwise rewrite the URL to the upstream host over https with no port,
copy the method, attach the body only for non-GET/HEAD methods, delete
the Cloudflare-specific headers, and reset `host`. -/
def buildReq (request : InboundRequest) (env : Env) : Option ReqData :=
  if strFalsy env.GET_URL then none
  else
    let targetHost := env.GET_URL.getD ""
    let url : URLParts :=
      { request.url with hostname := targetHost, port := "", protocol := "https:" }
    let requestInit : RequestInit :=
      { method := request.method
        headers := request.headers
        redirect := "follow"
        body := if ["GET", "HEAD"].contains request.method then none else request.body }
    let removeHeaders := ["host", "cf-connecting-ip", "cf-ipcountry", "cf-ray", "cf-visitor", "cdn-loop"]
    let cleaned := removeHeaders.foldl (fun hs h => hs.delete h) requestInit.headers
    some { url := url.toString
           requestInit := { requestInit with headers := cleaned.set "host" targetHost } }

/-- Semantic fields of the error-page HTML of `workers.js` (title,
status display, heading, message); the surrounding CSS markup is
presentation only and is abridged here. -/
def errorPageHtml (statusCode : Nat) (customMessage : Option String) (msg : String) : String :=
  let title := match customMessage with
    | some _ => "配置错误"
    | none => "状态 " ++ toString statusCode
  let display := match customMessage with
    | some _ => "!"
    | none => toString statusCode
  let heading := match customMessage with
    | some _ => "配置错误"
    | none => "请求状态"
  "<!DOCTYPE html><html lang=\"zh-CN\"><head><meta charset=\"UTF-8\" /><title>" ++
    title ++ "</title></head><body><div class=\"container\"><div class=\"status\">" ++
    display ++ "</div><h1>" ++ heading ++ "</h1><p>" ++ msg ++ "</p></div></body></html>"

/-- `generateErrorPage` of `workers.js`: status is 500 when a custom
message is supplied, else the given status code; body is the rendered
HTML page; single `Content-Type` header. -/
def generateErrorPage (statusCode : Nat) (customMessage : Option String) : Response :=
  let msg := match customMessage with
    | some m => m
    | none =>
        if statusCode = 404 then "抱歉，您请求的资源未找到。"
        else "请求的资源可能需要特殊权限才能访问，或者暂时不可用。"
  { status := match customMessage with
      | some _ => 500
      | none => statusCode
    headers := Headers.ofList [("Content-Type", "text/html; charset=utf-8")]
    body := some (errorPageHtml statusCode customMessage msg) }

/-- `getDisposition` of `workers.js`: falsy content-type defaults to
attachment; otherwise lower-case it and check, in order, the
`FORCE_INLINE_TYPES` list, the `FORCE_DOWNLOAD_TYPES` list, and the
built-in inline classes. -/
def getDisposition (contentType : Option String) (env : Env) : String :=
  match contentType with
  | none => "attachment"
  | some s =>
      if s.data.isEmpty then "attachment"
      else
        let ct := strToLower s
        let forceInlineList := parseMimeList env.FORCE_INLINE_TYPES
        let forceDownloadList := parseMimeList env.FORCE_DOWNLOAD_TYPES
        if forceInlineList.any (fun t => strIncludes ct t) then "inline"
        else if forceDownloadList.any (fun t => strIncludes ct t) then "attachment"
        else if strStartsWith ct "image/" then "inline"
        else if strStartsWith ct "text/" then "inline"
        else if strIncludes ct "application/pdf" then "inline"
        else if (["application/json", "application/xml", "application/javascript",
            "text/javascript"]).any (fun t => strIncludes ct t) then "inline"
        else "attachment"

/-- The response-transformation stage of `getResponse` in `workers.js`
(everything after the `fetch`), factored out so it can be stated about
directly; it recomputes `parseNormalStatusCodes` from the same
environment, which is pure, so the value is unchanged. -/
def transformUpstream (env : Env) (response : Response) : Response :=
  let normalStatusCodes := parseNormalStatusCodes env.NORMAL_STATUS_CODES
  if !(normalStatusCodes.contains (response.status : Int)) then
    if NULL_BODY_STATUS_CODES.contains response.status then
      { status := response.status, headers := Headers.empty, body := none }
    else
      generateErrorPage response.status none
  else
    let newResponse : Response :=
      { status := response.status
        headers := response.headers
        body := if NULL_BODY_STATUS_CODES.contains response.status then none
                else response.body }
    let contentType := newResponse.headers.get "Content-Type"
    let withCharset : Response :=
      match contentType with
      | some ct =>
          if strStartsWith ct "text/" then
            { newResponse with
                headers := newResponse.headers.set "Content-Type"
                  (ct ++ "; charset=" ++ CHARSET_DEFAULT) }
          else newResponse
      | none => newResponse
    let disposition := getDisposition contentType env
    { withCharset with
        headers := withCharset.headers.set "Content-Disposition" disposition }

/-- `getResponse` of `workers.js`, with the network `fetch` collaborator
passed in explicitly. -/
def getResponse (fetchFn : String → RequestInit → Response)
    (request : InboundRequest) (env : Env) : Response :=
  if strFalsy env.GET_URL then
    generateErrorPage 0 (some "未配置 GET_URL，请先配置环境变量。")
  else
    match buildReq request env with
    | none => generateErrorPage 0 (some "无法构建请求，请检查环境变量配置。")
    | some reqData =>
        transformUpstream env (fetchFn reqData.url reqData.requestInit)

end Workers

namespace IndexSrc

/-- `const CHARSET_DEFAULT = 'utf-8'` of `src/index.js`. -/
def CHARSET_DEFAULT : String := "utf-8"

/-- `const PREVIEW_TYPES = [...]` of `src/index.js`. -/
def PREVIEW_TYPES : List String :=
  ["text/", "image/", "application/json", "application/xml", "application/javascript"]

/-- `shouldPreview` of `src/index.js`: falsy content-type is not
previewed; otherwise substring containment against `PREVIEW_TYPES`
(no lower-casing in this variant). -/
def shouldPreview (contentType : Option String) : Bool :=
  match contentType with
  | none => false
  | some s =>
      if s.data.isEmpty then false
      else PREVIEW_TYPES.any (fun t => strIncludes s t)

/-- `parseNormalStatusCodes` of `src/index.js` (textually identical to
the `workers.js` version). -/
def parseNormalStatusCodes (statusCodesStr : Option String) : List Int :=
  if strFalsy statusCodesStr then [200]
  else ((jsSplit (statusCodesStr.getD "") ',').map
    (fun code => jsParseInt (jsTrim code))).reduceOption

/-- `buildReq` of `src/index.js` (same algorithm as `workers.js`, with
the six header deletions written out one by one). -/
def buildReq (request : InboundRequest) (env : Env) : Option ReqData :=
  if strFalsy env.GET_URL then none
  else
    let targetHost := env.GET_URL.getD ""
    let url : URLParts :=
      { request.url with hostname := targetHost, port := "", protocol := "https:" }
    let requestInit : RequestInit :=
      { method := request.method
        headers := request.headers
        redirect := "follow"
        body := if ["GET", "HEAD"].contains request.method then none else request.body }
    let cleaned :=
      ((((((requestInit.headers.delete "host").delete "cf-connecting-ip").delete
        "cf-ipcountry").delete "cf-ray").delete "cf-visitor").delete "cdn-loop")
    some { url := url.toString
           requestInit := { requestInit with headers := cleaned.set "host" targetHost } }

/-- Semantic fields of the error-page HTML of `src/index.js`; the CSS
and animation markup is presentation only and is abridged here. -/
def errorPageHtml (statusCode : Nat) (customMessage : Option String) (msg : String) : String :=
  let title := match customMessage with
    | some _ => "配置错误"
    | none => "状态 " ++ toString statusCode
  let display := match customMessage with
    | some _ => "!"
    | none => toString statusCode
  let heading := match customMessage with
    | some _ => "配置错误"
    | none => "请求状态"
  let retry := match customMessage with
    | some _ => ""
    | none => "<div class=\"retry-message\">请稍后再试</div>"
  "<!DOCTYPE html><html lang=\"zh-CN\"><head><meta charset=\"UTF-8\"><title>" ++
    title ++ "</title></head><body><div class=\"container\"><div class=\"status-code\">" ++
    display ++ "</div><h1>" ++ heading ++ "</h1><div class=\"message\">" ++ msg ++
    "</div>" ++ retry ++ "</div></body></html>"

/-- `generateErrorPage` of `src/index.js`: same status and header logic
as the `workers.js` version, different template. -/
def generateErrorPage (statusCode : Nat) (customMessage : Option String) : Response :=
  let friendlyMessage := match customMessage with
    | some m => m
    | none =>
        if statusCode = 404 then "抱歉，您请求的资源未找到。"
        else "请求的资源可能需要特殊权限才能访问，或者暂时不可用。"
  { status := match customMessage with
      | some _ => 500
      | none => statusCode
    headers := Headers.ofList [("Content-Type", "text/html; charset=utf-8")]
    body := some (errorPageHtml statusCode customMessage friendlyMessage) }

/-- `getResponse` of `src/index.js`: unlike `workers.js`, a non-allowed
status always yields the error page (no bodiless special case), and an
allowed response keeps its body unconditionally. -/
def getResponse (fetchFn : String → RequestInit → Response)
    (request : InboundRequest) (env : Env) : Response :=
  if strFalsy env.GET_URL then
    generateErrorPage 0 (some "未配置 GET_URL，请先配置环境变量。")
  else
    match buildReq request env with
    | none => generateErrorPage 0 (some "无法构建请求，请检查环境变量配置。")
    | some requestData =>
        let response := fetchFn requestData.url requestData.requestInit
        let normalStatusCodes := parseNormalStatusCodes env.NORMAL_STATUS_CODES
        if !(normalStatusCodes.contains (response.status : Int)) then
          generateErrorPage response.status none
        else
          let newResponse : Response :=
            { status := response.status, headers := response.headers, body := response.body }
          let contentType := newResponse.headers.get "Content-Type"
          let isPreview := shouldPreview contentType
          let withCharset : Response :=
            match contentType with
            | some ct =>
                if isPreview then
                  { newResponse with
                      headers := newResponse.headers.set "Content-Type"
                        (ct ++ "; charset=" ++ CHARSET_DEFAULT) }
                else newResponse
            | none => newResponse
          { withCharset with
              headers := withCharset.headers.set "Content-Disposition"
                (if isPreview then "inline" else "attachment") }

end IndexSrc

/-! ## Spec-side definitions

These follow the wording of the specification (not the code) and are
compared with the embedded code in the refinement-style claims. -/

/-- Spec wording of the built-in inline classes (spec §4.3 step 3):
starts with `image/` or `text/`, or contains `application/pdf`, or
contains one of `application/json`, `application/xml`,
`application/javascript`, `text/javascript`. -/
def builtinInlineSpec (c : String) : Bool :=
  strStartsWith c "image/" || strStartsWith c "text/" ||
    strIncludes c "application/pdf" ||
    (["application/json", "application/xml", "application/javascript",
      "text/javascript"]).any (fun t => strIncludes c t)

/-- Spec wording of the disposition decision (spec §4.3): `inline` iff
some force-inline entry is contained in the lower-cased content-type, or
no force-download entry is contained in it and it matches a built-in
inline class; absent content-type is never inline. -/
def decideInlineSpec (contentType : Option String) (env : Env) : Bool :=
  match contentType with
  | none => false
  | some s =>
      let c := strToLower s
      let fi := Workers.parseMimeList env.FORCE_INLINE_TYPES
      let fd := Workers.parseMimeList env.FORCE_DOWNLOAD_TYPES
      fi.any (fun t => strIncludes c t) ||
        (!(fd.any (fun t => strIncludes c t)) && builtinInlineSpec c)

/-- The three outcomes the orchestrator can choose for one upstream
response (spec §3 invariant). -/
inductive ProxyOutcome where
  | passThrough
  | bodiless
  | errorPage
deriving DecidableEq

/-- Which of the three outcomes `workers.js` chooses for a given
upstream response: allowed status means pass-through, otherwise a
protocol-bodiless status yields the bodiless outcome and anything else
the error page. -/
def outcomeOf (env : Env) (resp : Response) : ProxyOutcome :=
  if !((Workers.parseNormalStatusCodes env.NORMAL_STATUS_CODES).contains
      ((resp.status : Int))) then
    if Workers.NULL_BODY_STATUS_CODES.contains resp.status then ProxyOutcome.bodiless
    else ProxyOutcome.errorPage
  else ProxyOutcome.passThrough

/-! ## Concrete sample data used by witnesses and counterexamples -/

/-- Environment with only the upstream host configured. -/
def envDefault : Env :=
  { GET_URL := some "example.com", NORMAL_STATUS_CODES := none,
    FORCE_INLINE_TYPES := none, FORCE_DOWNLOAD_TYPES := none }

/-- Environment with no upstream host configured. -/
def envUnset : Env :=
  { GET_URL := none, NORMAL_STATUS_CODES := none,
    FORCE_INLINE_TYPES := none, FORCE_DOWNLOAD_TYPES := none }

/-- Environment whose force-download list matches the word `charset`. -/
def envForceCharset : Env :=
  { envDefault with FORCE_DOWNLOAD_TYPES := some "charset" }

/-- Environment allow-listing the statuses 200 and 304. -/
def envAllow304 : Env :=
  { envDefault with NORMAL_STATUS_CODES := some "200,304" }

/-- A sample inbound URL. -/
def urlSample : URLParts :=
  { protocol := "http:", hostname := "proxy.example", port := "8080",
    pathAndQuery := "/files/a.txt?dl=1" }

/-- A GET request that (illegally) carries a body. -/
def reqGet : InboundRequest :=
  { method := "GET", url := urlSample,
    headers := Headers.ofList [("Accept", "*/*")], body := some "stray-body" }

/-- A POST request with a body. -/
def reqPost : InboundRequest :=
  { method := "POST", url := urlSample, headers := Headers.empty,
    body := some "payload" }

/-- An allowed upstream response with a `text/html` content-type. -/
def respTextHtml : Response :=
  { status := 200, headers := Headers.ofList [("Content-Type", "text/html")],
    body := some "<p>hello</p>" }

/-- A rejected upstream response with status 403. -/
def resp403 : Response :=
  { status := 403, headers := Headers.empty, body := some "forbidden-body" }

/-- An upstream 304 response that (illegally) carries a body. -/
def resp304 : Response :=
  { status := 304, headers := Headers.ofList [("Content-Type", "text/html")],
    body := some "cached-body" }

/-- A network collaborator that always answers with the given
response. -/
def fetchConst (resp : Response) : String → RequestInit → Response :=
  fun _ _ => resp

/-- The outbound request `buildReq` produces for `reqGet` under
`envDefault` (used by the C8 witness). -/
def rdGetSample : ReqData :=
  { url := "https://example.com/files/a.txt?dl=1"
    requestInit :=
      { method := "GET"
        headers := ⟨[("accept", "*/*"), ("host", "example.com")]⟩
        redirect := "follow"
        body := none } }

/-! ## Helper lemmas about the header map -/

theorem List.find?_filter_ne_self (l : List (String × String)) (κ : String) :
    (l.filter (fun p => p.1 != κ)).find? (fun p => p.1 == κ) = none := by
  induction l with
  | nil => rfl
  | cons a t ih =>
      by_cases h : a.1 = κ
      · rw [List.filter_cons_of_neg (by simp [h])]
        exact ih
      · rw [List.filter_cons_of_pos (by simp [h]),
          List.find?_cons_of_neg _ (by simp [h])]
        exact ih

theorem List.find?_filter_ne_other (l : List (String × String)) (κ κ2 : String)
    (h : κ2 ≠ κ) :
    (l.filter (fun p => p.1 != κ)).find? (fun p => p.1 == κ2) =
      l.find? (fun p => p.1 == κ2) := by
  induction l with
  | nil => rfl
  | cons a t ih =>
      by_cases ha : a.1 = κ
      · rw [List.filter_cons_of_neg (by simp [ha]),
          List.find?_cons_of_neg _ (by simp [ha]; exact fun hk => h hk.symm)]
        exact ih
      · rw [List.filter_cons_of_pos (by simp [ha])]
        by_cases ha2 : a.1 = κ2
        · rw [List.find?_cons_of_pos _ (by simp [ha2]),
            List.find?_cons_of_pos _ (by simp [ha2])]
        · rw [List.find?_cons_of_neg _ (by simp [ha2]),
            List.find?_cons_of_neg _ (by simp [ha2])]
          exact ih

/-- Setting a header makes it readable back. -/
theorem Headers.get_set_self (h : Headers) (k v : String) :
    (h.set k v).get k = some v := by
  unfold Headers.get Headers.set Headers.delete
  rw [List.find?_append, List.find?_filter_ne_self]
  simp [List.find?]

/-- Setting one header leaves the others unchanged. -/
theorem Headers.get_set_other (h : Headers) (k k2 v : String)
    (hk : strToLower k2 ≠ strToLower k) :
    (h.set k v).get k2 = h.get k2 := by
  unfold Headers.get Headers.set Headers.delete
  rw [List.find?_append, List.find?_filter_ne_other _ _ _ hk]
  cases hf : (h.entries.find? (fun p => p.1 == strToLower k2)) with
  | some a => rfl
  | none =>
      have hne : (strToLower k == strToLower k2) = false := by
        simp only [beq_eq_false_iff_ne, ne_eq]
        exact fun h2 => hk h2.symm
      simp [List.find?, Option.or, hne]

/-- The empty header map has no entries to read. -/
theorem Headers.get_empty (k : String) : Headers.empty.get k = none := rfl

/-! ## Helper lemmas about the configuration parsers and the policy -/

/-- Every entry of a parsed MIME list is a non-empty string (the parser
drops falsy tokens). -/
theorem Workers.parseMimeList_mem_ne_empty (x : Option String) :
    ∀ t ∈ Workers.parseMimeList x, t.data.isEmpty = false := by
  intro t ht
  unfold Workers.parseMimeList at ht
  by_cases hf : strFalsy x = true
  · simp [hf] at ht
  · rw [if_neg hf] at ht
    have := (List.mem_filter.mp ht).2
    simpa using this

/-- Containment of a non-empty needle in the empty string is false. -/
theorem strIncludes_empty_of_ne (t : String) (h : t.data.isEmpty = false) :
    strIncludes ⟨[]⟩ t = false := by
  unfold strIncludes listIsInfixB
  exact h

/-- The disposition policy only ever produces the two bare tokens. -/
theorem Workers.getDisposition_cases (contentType : Option String) (env : Env) :
    Workers.getDisposition contentType env = "inline" ∨
      Workers.getDisposition contentType env = "attachment" := by
  unfold Workers.getDisposition
  dsimp only
  repeat' split
  all_goals first | exact Or.inl rfl | exact Or.inr rfl

/-- All-`none` lists collapse to the empty list under `reduceOption`. -/
theorem List.reduceOption_eq_nil_of_all_none {α : Type} {l : List (Option α)}
    (h : ∀ x ∈ l, x = none) : l.reduceOption = [] := by
  induction l with
  | nil => rfl
  | cons a t ih =>
      have ha := h a (by simp)
      subst ha
      simp only [List.reduceOption_cons_of_none]
      exact ih (fun x hx => h x (by simp [hx]))

/-- The error page keeps the rejected status when no custom message is
supplied. -/
theorem Workers.generateErrorPage_status_none (s : Nat) :
    (Workers.generateErrorPage s none).status = s := rfl

/-- The error page carries exactly one header, the content-type. -/
theorem Workers.generateErrorPage_headers (s : Nat) (m : Option String) :
    (Workers.generateErrorPage s m).headers =
      Headers.ofList [("Content-Type", "text/html; charset=utf-8")] := rfl

/-- The error page always has a body. -/
theorem Workers.generateErrorPage_body_isSome (s : Nat) (m : Option String) :
    (Workers.generateErrorPage s m).body.isSome = true := rfl

/-! ## Claim C10 -/

/-- C10: `parseNormalStatusCodes` keeps a token whose trimmed text
begins with digits but continues with non-numeric characters, and
contributes the integer value of the numeric prefix: `"301abc"`
contributes 301 (in both source variants). -/
theorem c10_parse_keeps_numeric_prefix :
    Workers.parseNormalStatusCodes (some "301abc") = [301] ∧
    Workers.parseNormalStatusCodes (some "200, 301abc") = [200, 301] ∧
    IndexSrc.parseNormalStatusCodes (some "200, 301abc") = [200, 301] := by
  decide

/-! ## Claim C1 -/

/-- C1 counterexample: for the all-unparseable, non-empty configuration
string `"abc"`, `parseNormalStatusCodes` returns the empty list, not
`[200]` as the claim states, so the allow-list can be empty. -/
theorem c1_counterexample :
    Workers.parseNormalStatusCodes (some "abc") = [] ∧
    ¬ Workers.parseNormalStatusCodes (some "abc") = [200] := by
  decide

/-- C1 amended: the default `[200]` applies only when the input is
absent or empty; when the input is non-empty and every comma-separated
token fails to parse, the result is the empty list (the allow-list is
not guaranteed non-empty).  Both variants implement the same parser. -/
theorem c1_default_only_for_falsy_amended :
    (∀ s : Option String, strFalsy s = true →
      Workers.parseNormalStatusCodes s = [200]) ∧
    (∀ s : String,
      ((jsSplit s ',').all (fun tok => (jsParseInt (jsTrim tok)).isNone)) = true →
      strFalsy (some s) = false →
      Workers.parseNormalStatusCodes (some s) = []) ∧
    (∀ s : Option String,
      IndexSrc.parseNormalStatusCodes s = Workers.parseNormalStatusCodes s) := by
  refine ⟨?_, ?_, ?_⟩
  · intro s hs
    unfold Workers.parseNormalStatusCodes
    simp [hs]
  · intro s hall hnf
    unfold Workers.parseNormalStatusCodes
    rw [if_neg (by simp [hnf])]
    apply List.reduceOption_eq_nil_of_all_none
    intro x hx
    rw [List.mem_map] at hx
    obtain ⟨tok, htok, rfl⟩ := hx
    have := (List.all_eq_true.mp hall) tok htok
    simpa [Option.isNone_iff_eq_none] using this
  · intro s
    rfl

/-- C1 witness: the amended theorem applied at the absent input and at
the concrete all-unparseable input `"abc"`. -/
theorem c1_default_only_for_falsy_witness :
    Workers.parseNormalStatusCodes none = [200] ∧
    Workers.parseNormalStatusCodes (some "abc") = [] :=
  ⟨c1_default_only_for_falsy_amended.1 none rfl,
   c1_default_only_for_falsy_amended.2.1 "abc" (by decide) (by decide)⟩

/-! ## Claim C6 -/

/-- C6: the two variants are not behaviourally equivalent: for an
upstream 304 response carrying a body, with 304 on the allow-list, the
`workers.js` handler strips the body while the `src/index.js` handler
forwards it alongside the 304 status. -/
theorem c6_variants_disagree_on_bodiless :
    (Workers.getResponse (fetchConst resp304) reqGet envAllow304).status = 304 ∧
    (Workers.getResponse (fetchConst resp304) reqGet envAllow304).body = none ∧
    (IndexSrc.getResponse (fetchConst resp304) reqGet envAllow304).status = 304 ∧
    (IndexSrc.getResponse (fetchConst resp304) reqGet envAllow304).body =
      some "cached-body" := by
  decide

/-! ## Claim C2 -/

/-- C2: for a rejected upstream status (not in the allow-list), the
`workers.js` transformer returns a bare bodiless response with the same
status for the protocol-bodiless codes 101/204/205/304, and otherwise
the rendered error page whose status mirrors the upstream status. -/
theorem c2_rejected_status (env : Env) (resp : Response)
    (h : (Workers.parseNormalStatusCodes env.NORMAL_STATUS_CODES).contains
      ((resp.status : Int)) = false) :
    (Workers.NULL_BODY_STATUS_CODES.contains resp.status = true →
        Workers.transformUpstream env resp =
          { status := resp.status, headers := Headers.empty, body := none }) ∧
    (Workers.NULL_BODY_STATUS_CODES.contains resp.status = false →
        Workers.transformUpstream env resp = Workers.generateErrorPage resp.status none ∧
        (Workers.generateErrorPage resp.status none).status = resp.status) := by
  have h2 : ¬ (((resp.status : Int)) ∈
      Workers.parseNormalStatusCodes env.NORMAL_STATUS_CODES) := by
    simpa using h
  constructor
  · intro hb
    have hb2 : resp.status ∈ Workers.NULL_BODY_STATUS_CODES := by simpa using hb
    unfold Workers.transformUpstream
    simp [h2, hb2]
  · intro hb
    have hb2 : ¬ (resp.status ∈ Workers.NULL_BODY_STATUS_CODES) := by simpa using hb
    refine ⟨?_, rfl⟩
    unfold Workers.transformUpstream
    simp [h2, hb2]

/-- C2 witness: the theorem applied at the concrete rejected status 403
under the default allow-list. -/
theorem c2_rejected_status_witness :
    (Workers.NULL_BODY_STATUS_CODES.contains resp403.status = true →
        Workers.transformUpstream envDefault resp403 =
          { status := resp403.status, headers := Headers.empty, body := none }) ∧
    (Workers.NULL_BODY_STATUS_CODES.contains resp403.status = false →
        Workers.transformUpstream envDefault resp403 =
          Workers.generateErrorPage resp403.status none ∧
        (Workers.generateErrorPage resp403.status none).status = resp403.status) :=
  c2_rejected_status envDefault resp403 (by decide)

/-! ## Claim C5 -/

/-- C5: when no upstream host is configured, the handler answers with
the rendered configuration-error page (status 500, fixed message) for
every inbound request and every network collaborator, so the fetch
collaborator is never consulted. -/
theorem c5_unconfigured_no_fetch (fetchFn : String → RequestInit → Response)
    (request : InboundRequest) (env : Env) (h : strFalsy env.GET_URL = true) :
    Workers.getResponse fetchFn request env =
      Workers.generateErrorPage 0 (some "未配置 GET_URL，请先配置环境变量。") ∧
    (Workers.getResponse fetchFn request env).status = 500 := by
  constructor
  · unfold Workers.getResponse
    rw [if_pos h]
  · unfold Workers.getResponse
    rw [if_pos h]
    rfl

/-- C5 witness: the theorem applied at a concrete unset environment and
an arbitrary concrete collaborator. -/
theorem c5_unconfigured_no_fetch_witness :
    Workers.getResponse (fetchConst resp403) reqGet envUnset =
      Workers.generateErrorPage 0 (some "未配置 GET_URL，请先配置环境变量。") ∧
    (Workers.getResponse (fetchConst resp403) reqGet envUnset).status = 500 :=
  c5_unconfigured_no_fetch (fetchConst resp403) reqGet envUnset rfl

/-! ## Claim C8 -/

/-- C8: the outbound request built by `buildReq` carries no body for
GET and HEAD (even when the inbound request attached one), and carries
the inbound body reference unchanged for every other method; the
`src/index.js` variant builds the same outbound request. -/
theorem c8_body_only_for_non_get_head (request : InboundRequest) (env : Env)
    (rd : ReqData) (h : Workers.buildReq request env = some rd) :
    ((request.method = "GET" ∨ request.method = "HEAD") →
      rd.requestInit.body = none) ∧
    (¬ (request.method = "GET" ∨ request.method = "HEAD") →
      rd.requestInit.body = request.body) ∧
    IndexSrc.buildReq request env = Workers.buildReq request env := by
  refine ⟨?_, ?_, ?_⟩
  · intro hm
    unfold Workers.buildReq at h
    by_cases hf : strFalsy env.GET_URL = true
    · rw [if_pos hf] at h
      exact absurd h (by simp)
    · rw [if_neg hf, Option.some_inj] at h
      subst h
      have hmem : (["GET", "HEAD"].contains request.method) = true := by
        rcases hm with hm | hm <;> simp [hm]
      show (if (["GET", "HEAD"].contains request.method) = true
        then (none : Option String) else request.body) = none
      rw [if_pos hmem]
  · intro hm
    unfold Workers.buildReq at h
    by_cases hf : strFalsy env.GET_URL = true
    · rw [if_pos hf] at h
      exact absurd h (by simp)
    · rw [if_neg hf, Option.some_inj] at h
      subst h
      have hmem : (["GET", "HEAD"].contains request.method) = false := by
        cases hc : (["GET", "HEAD"].contains request.method) with
        | false => rfl
        | true =>
            have hmem2 : request.method ∈ ["GET", "HEAD"] := by simpa using hc
            simp only [List.mem_cons, List.not_mem_nil, or_false] at hmem2
            exact absurd hmem2 hm
      show (if (["GET", "HEAD"].contains request.method) = true
        then (none : Option String) else request.body) = request.body
      rw [if_neg (by intro hc; rw [hmem] at hc; exact Bool.false_ne_true hc)]
  · unfold IndexSrc.buildReq Workers.buildReq
    by_cases hf : strFalsy env.GET_URL = true
    · rw [if_pos hf, if_pos hf]
    · rw [if_neg hf, if_neg hf]
      rfl

/-- C8 witness: the theorem applied to a concrete GET request carrying
a stray body. -/
theorem c8_body_only_for_non_get_head_witness :
    ((reqGet.method = "GET" ∨ reqGet.method = "HEAD") →
      rdGetSample.requestInit.body = none) ∧
    (¬ (reqGet.method = "GET" ∨ reqGet.method = "HEAD") →
      rdGetSample.requestInit.body = reqGet.body) ∧
    IndexSrc.buildReq reqGet envDefault = Workers.buildReq reqGet envDefault :=
  c8_body_only_for_non_get_head reqGet envDefault rdGetSample (by decide)

/-! ## Claim C4 -/

/-- C4 counterexample: applying the `workers.js` transformation twice
to a status-200 `text/html` response duplicates the charset parameter,
refuting the claimed idempotence (and the claimed guard on an existing
charset parameter). -/
theorem c4_counterexample :
    (Workers.transformUpstream envDefault
        (Workers.transformUpstream envDefault respTextHtml)).headers.get "Content-Type" =
      some "text/html; charset=utf-8; charset=utf-8" ∧
    ¬ (Workers.transformUpstream envDefault
        (Workers.transformUpstream envDefault respTextHtml)).headers.get "Content-Type" =
      some "text/html; charset=utf-8" := by
  decide

/-- C4 amended: for an allowed response the transformer appends
`; charset=utf-8` whenever the content-type starts with `text/`,
with no check for an existing charset parameter — so the
transformation is not idempotent on this header. -/
theorem c4_charset_append_amended (env : Env) (resp : Response) (ct : String)
    (hok : (Workers.parseNormalStatusCodes env.NORMAL_STATUS_CODES).contains
      ((resp.status : Int)) = true)
    (hct : resp.headers.get "Content-Type" = some ct)
    (htext : strStartsWith ct "text/" = true) :
    (Workers.transformUpstream env resp).headers.get "Content-Type" =
      some (ct ++ "; charset=utf-8") := by
  simp only [Workers.transformUpstream]
  rw [hok]
  simp only [Bool.not_true]
  rw [if_neg Bool.false_ne_true]
  simp only [hct]
  rw [if_pos htext]
  rw [Headers.get_set_other _ _ _ _ (by decide), Headers.get_set_self,
    String.append_assoc]
  rfl

/-- C4 witness: the amended theorem applied to the concrete
status-200 `text/html` response. -/
theorem c4_charset_append_witness :
    (Workers.transformUpstream envDefault respTextHtml).headers.get "Content-Type" =
      some ("text/html" ++ "; charset=utf-8") :=
  c4_charset_append_amended envDefault respTextHtml "text/html"
    (by decide) (by decide) (by decide)

/-! ## Claim C7 -/

/-- C7 counterexample: the disposition decision uses the content-type
captured before the charset was appended.  With force-download entry
`charset` and upstream content-type `text/html`, the outbound
`Content-Disposition` is `inline`, while deciding on the
charset-augmented outbound content-type would give `attachment`. -/
theorem c7_counterexample :
    (Workers.transformUpstream envForceCharset respTextHtml).headers.get
      "Content-Disposition" = some "inline" ∧
    Workers.getDisposition
      ((Workers.transformUpstream envForceCharset respTextHtml).headers.get
        "Content-Type") envForceCharset = "attachment" := by
  decide

/-- C7 amended: for every allowed upstream response the outbound
`Content-Disposition` is the bare token `getDisposition` computes from
the original (pre-augmentation) upstream content-type — not from the
charset-augmented value — and that token is always exactly `inline` or
`attachment`, with no filename parameter. -/
theorem c7_disposition_from_original_amended (env : Env) (resp : Response)
    (hok : (Workers.parseNormalStatusCodes env.NORMAL_STATUS_CODES).contains
      ((resp.status : Int)) = true) :
    (Workers.transformUpstream env resp).headers.get "Content-Disposition" =
      some (Workers.getDisposition (resp.headers.get "Content-Type") env) ∧
    (Workers.getDisposition (resp.headers.get "Content-Type") env = "inline" ∨
      Workers.getDisposition (resp.headers.get "Content-Type") env = "attachment") := by
  constructor
  · simp only [Workers.transformUpstream]
    rw [hok]
    simp only [Bool.not_true]
    rw [if_neg Bool.false_ne_true]
    cases hct : resp.headers.get "Content-Type" with
    | none =>
        simp only [hct]
        rw [Headers.get_set_self]
    | some ct =>
        simp only [hct]
        by_cases htext : strStartsWith ct "text/" = true
        · rw [if_pos htext]
          rw [Headers.get_set_self]
        · rw [if_neg htext]
          rw [Headers.get_set_self]
  · exact Workers.getDisposition_cases _ env

/-- C7 witness: the amended theorem applied to the concrete status-200
`text/html` response under the force-download-charset environment. -/
theorem c7_disposition_from_original_witness :
    (Workers.transformUpstream envForceCharset respTextHtml).headers.get
      "Content-Disposition" =
      some (Workers.getDisposition (respTextHtml.headers.get "Content-Type")
        envForceCharset) ∧
    (Workers.getDisposition (respTextHtml.headers.get "Content-Type")
        envForceCharset = "inline" ∨
      Workers.getDisposition (respTextHtml.headers.get "Content-Type")
        envForceCharset = "attachment") :=
  c7_disposition_from_original_amended envForceCharset respTextHtml (by decide)

/-! ## Claim C9 -/

/-- C9: per upstream response exactly one of the three outcomes
(pass-through, bodiless, error page) is chosen, as classified by
`outcomeOf`; the outbound response carries a `Content-Disposition`
header if and only if the pass-through outcome was chosen, and the
bodiless and error-page outcomes produce exactly the bare status
response and the rendered error page respectively. -/
theorem c9_disposition_iff_passthrough (env : Env) (resp : Response) :
    (((Workers.transformUpstream env resp).headers.get
        "Content-Disposition").isSome = true ↔
      outcomeOf env resp = ProxyOutcome.passThrough) ∧
    (outcomeOf env resp = ProxyOutcome.bodiless →
      Workers.transformUpstream env resp =
        { status := resp.status, headers := Headers.empty, body := none }) ∧
    (outcomeOf env resp = ProxyOutcome.errorPage →
      Workers.transformUpstream env resp =
        Workers.generateErrorPage resp.status none) := by
  cases hcon : (Workers.parseNormalStatusCodes env.NORMAL_STATUS_CODES).contains
      ((resp.status : Int)) with
  | true =>
      have hout : outcomeOf env resp = ProxyOutcome.passThrough := by
        simp only [outcomeOf]
        rw [hcon]
        simp only [Bool.not_true]
        rw [if_neg Bool.false_ne_true]
      have hget : (Workers.transformUpstream env resp).headers.get
          "Content-Disposition" =
          some (Workers.getDisposition (resp.headers.get "Content-Type") env) := by
        simp only [Workers.transformUpstream]
        rw [hcon]
        simp only [Bool.not_true]
        rw [if_neg Bool.false_ne_true]
        cases hct : resp.headers.get "Content-Type" with
        | none =>
            simp only [hct]
            rw [Headers.get_set_self]
        | some ct =>
            simp only [hct]
            by_cases htext : strStartsWith ct "text/" = true
            · rw [if_pos htext, Headers.get_set_self]
            · rw [if_neg htext, Headers.get_set_self]
      refine ⟨?_, ?_, ?_⟩
      · rw [hget, hout]
        simp
      · intro hb
        rw [hout] at hb
        exact absurd hb (by decide)
      · intro hb
        rw [hout] at hb
        exact absurd hb (by decide)
  | false =>
      cases hb : Workers.NULL_BODY_STATUS_CODES.contains resp.status with
      | true =>
          have hout : outcomeOf env resp = ProxyOutcome.bodiless := by
            simp only [outcomeOf]
            rw [hcon]
            simp only [Bool.not_false]
            rw [if_pos trivial, if_pos hb]
          have htr : Workers.transformUpstream env resp =
              { status := resp.status, headers := Headers.empty, body := none } := by
            simp only [Workers.transformUpstream]
            rw [hcon]
            simp only [Bool.not_false]
            rw [if_pos trivial, if_pos hb]
          have hnone : (Workers.transformUpstream env resp).headers.get
              "Content-Disposition" = none := by
            rw [htr]
            rfl
          refine ⟨?_, fun _ => htr, ?_⟩
          · rw [hnone, hout]
            simp
          · intro hb2
            rw [hout] at hb2
            exact absurd hb2 (by decide)
      | false =>
          have hbne : ¬ (Workers.NULL_BODY_STATUS_CODES.contains resp.status = true) := by
            rw [hb]
            exact Bool.false_ne_true
          have hout : outcomeOf env resp = ProxyOutcome.errorPage := by
            simp only [outcomeOf]
            rw [hcon]
            simp only [Bool.not_false]
            rw [if_pos trivial, if_neg hbne]
          have htr : Workers.transformUpstream env resp =
              Workers.generateErrorPage resp.status none := by
            simp only [Workers.transformUpstream]
            rw [hcon]
            simp only [Bool.not_false]
            rw [if_pos trivial, if_neg hbne]
          have hnone : (Workers.transformUpstream env resp).headers.get
              "Content-Disposition" = none := by
            rw [htr]
            rfl
          refine ⟨?_, ?_, fun _ => htr⟩
          · rw [hnone, hout]
            simp
          · intro hb2
            rw [hout] at hb2
            exact absurd hb2 (by decide)

/-- C9 witness: the theorem applied at the concrete rejected bodiless
status 304 under the default allow-list. -/
theorem c9_disposition_iff_passthrough_witness :
    Workers.transformUpstream envDefault resp304 =
      { status := 304, headers := Headers.empty, body := none } :=
  (c9_disposition_iff_passthrough envDefault resp304).2.1 (by decide)

/-! ## Claim C3 -/

/-- C3: `getDisposition` returns `inline` exactly when the
specification's characterisation holds — some force-inline entry is
contained in the lower-cased content-type, or no force-download entry
is contained in it and it matches a built-in inline class — and returns
`attachment` in every other case, including an absent content-type; in
particular force-inline beats force-download, and force-download beats
the built-in classes. -/
theorem c3_disposition_characterisation (contentType : Option String) (env : Env) :
    (Workers.getDisposition contentType env = "inline" ↔
      decideInlineSpec contentType env = true) ∧
    (Workers.getDisposition contentType env = "attachment" ↔
      decideInlineSpec contentType env = false) := by
  have hmain : Workers.getDisposition contentType env = "inline" ↔
      decideInlineSpec contentType env = true := by
    cases contentType with
    | none =>
        show ("attachment" : String) = "inline" ↔ false = true
        decide
    | some s =>
        by_cases he : s.data.isEmpty = true
        · have hsl : strToLower s = ⟨[]⟩ := by
            unfold strToLower
            rw [List.isEmpty_iff.mp he]
            rfl
          have hany : ∀ x : Option String, (Workers.parseMimeList x).any
              (fun t => strIncludes (strToLower s) t) = false := by
            intro x
            cases hA : (Workers.parseMimeList x).any
                (fun t => strIncludes (strToLower s) t) with
            | false => rfl
            | true =>
                obtain ⟨t, ht, hinc⟩ := List.any_eq_true.mp hA
                rw [hsl, strIncludes_empty_of_ne t
                  (Workers.parseMimeList_mem_ne_empty x t ht)] at hinc
                exact absurd hinc Bool.false_ne_true
          have hbi : builtinInlineSpec (strToLower s) = false := by
            rw [hsl]
            decide
          simp only [Workers.getDisposition, decideInlineSpec]
          rw [if_pos he, hany, hany, hbi]
          decide
        · simp only [Workers.getDisposition, decideInlineSpec, builtinInlineSpec]
          rw [if_neg he]
          cases hfi : (Workers.parseMimeList env.FORCE_INLINE_TYPES).any
              (fun t => strIncludes (strToLower s) t) <;>
            cases hfd : (Workers.parseMimeList env.FORCE_DOWNLOAD_TYPES).any
              (fun t => strIncludes (strToLower s) t) <;>
            cases h1 : strStartsWith (strToLower s) "image/" <;>
            cases h2 : strStartsWith (strToLower s) "text/" <;>
            cases h3 : strIncludes (strToLower s) "application/pdf" <;>
            cases h4 : (["application/json", "application/xml",
              "application/javascript", "text/javascript"]).any
              (fun t => strIncludes (strToLower s) t) <;>
            decide
  refine ⟨hmain, ?_, ?_⟩
  · intro h
    cases hD : decideInlineSpec contentType env with
    | false => rfl
    | true =>
        have hI := hmain.mpr hD
        rw [h] at hI
        exact absurd hI (by decide)
  · intro hD
    rcases Workers.getDisposition_cases contentType env with hI | hA
    · have hT := hmain.mp hI
      rw [hD] at hT
      exact absurd hT Bool.false_ne_true
    · exact hA
